import Mathlib

/-!
# EdgeViewer native frame processor

A shallow embedding of `app/src/main/cpp/processor.cpp`: the two JNI entry
points `yuv420ToRgba` and `processFrame`, together with the OpenCV
operations they call.

Modelling conventions.

* A byte is a `Fin 256`.  A `jint` is an integer; the one arithmetic
  expression of the source on `jint`s, `height + height / 2`, is reduced
  to 32 bits (`wrap32`), and `/` truncates toward zero (`Int.tdiv`).
* A pointer is modelled by the function that reads the byte at a given
  offset from it.  Process memory is a total function, so a read past the
  end of a region yields whatever byte lies there.
* A `cv::Mat` is a header (rows, cols, type) and the read function of its
  data pointer.  All matrices of the program are continuous and 8-bit.
* OpenCV operations return `Except Fault`; a `Fault` is what the C++ code
  would throw.  Allocation is assumed to succeed, and `size_t` is wide enough
  for `rows * cols`.
* A returned direct buffer is modelled by the bytes it designates when it is
  created (`yuv420ToRgba` wraps the storage of a local matrix; what happens to
  that storage afterwards is outside the model).
* Every library call, log line and allocation is recorded as an `Event`,
  so that a statement can say that a stage was not run.
* `cv::cvtColor` is modelled on OpenCV 4.x's fixed-point arithmetic.
  `cv::GaussianBlur` and `cv::Canny` are parameters (`ImgprocLib`): their
  numerics involve floating point and are not described here.
-/

namespace EdgeViewer

/-! ## Machine integers -/

/-- An 8-bit unsigned sample (`uchar`, `uint8_t`). -/
abbrev uchar := Fin 256

/-- The sum `height + height / 2` of the source is representable as a `jint`
(beyond this range signed overflow is undefined behaviour in C++). -/
def NoOverflow (height : Int) : Prop :=
  -2147483648 ≤ height + Int.tdiv height 2 ∧ height + Int.tdiv height 2 ≤ 2147483647

instance (height : Int) : Decidable (NoOverflow height) := by
  unfold NoOverflow; infer_instance

/-- Reduction of an integer to 32-bit two's complement. -/
def wrap32 (x : Int) : Int := (x + 2147483648) % 4294967296 - 2147483648

/-- The `cv::saturate_cast<uchar>(int)` conversion: clamp to `0..255`. -/
def saturate_cast (v : Int) : uchar := Fin.ofNat (min v.toNat 255)

/-! ## Faults, events and the run monad -/

/-- What a C++ operation can throw, one constructor per `catch` clause of
`processFrame`. -/
inductive Fault where
  | cvException (what : String)
  | stdException (what : String)
  | unknown
  deriving DecidableEq, Repr

/-- The colour conversion codes used by the program. -/
inductive ColorConversionCode where
  | COLOR_YUV2RGBA_NV21
  | COLOR_RGBA2GRAY
  | COLOR_GRAY2RGBA
  deriving DecidableEq, Repr

/-- Observable steps of a call: library operations, log lines and the
allocation of the output buffer. -/
inductive Event where
  | LOGE (fmt : String)
  | MatCtor (rows cols : Int) (type : Nat)
  | cvtColor (code : ColorConversionCode)
  | clone
  | GaussianBlur
  | Canny
  | newArray (size : Nat)
  | memcpy (size : Nat)
  | NewDirectByteBuffer (capacity : Nat)
  deriving DecidableEq, Repr

/-- A computation that records events and either produces a value or
throws. -/
structure Run (α : Type) where
  events : List Event
  result : Except Fault α

/-- Return a value without any event. -/
def Run.pure {α : Type} (a : α) : Run α := ⟨[], .ok a⟩

/-- Sequencing: a thrown fault skips the rest, the events so far are kept. -/
def Run.bind {α β : Type} (x : Run α) (f : α → Run β) : Run β :=
  match x.result with
  | .error e => ⟨x.events, .error e⟩
  | .ok a => ⟨x.events ++ (f a).events, (f a).result⟩

instance : Monad Run where
  pure := Run.pure
  bind := Run.bind

/-- Perform one operation, recording it. -/
def Run.call {α : Type} (ev : Event) (r : Except Fault α) : Run α := ⟨[ev], r⟩

/-- Record an event. -/
def Run.emit (ev : Event) : Run Unit := ⟨[ev], .ok ()⟩

/-! ## `cv::Mat` -/

/-- The `CV_8UC1` type code. -/
def CV_8UC1 : Nat := 0

/-- The `CV_8UC4` type code. -/
def CV_8UC4 : Nat := 24

/-- A two-dimensional continuous 8-bit matrix: header and data pointer. -/
structure Mat where
  rows : Int
  cols : Int
  type : Nat
  data : Nat → uchar

namespace Mat

/-- The `CV_MAT_CN` of the type code: `(type >> 3) + 1`. -/
def channels (m : Mat) : Nat := m.type / 8 + 1

/-- Bytes per element; the depth is `CV_8U`. -/
def elemSize (m : Mat) : Nat := m.channels

/-- Number of elements, `rows * cols`. -/
def total (m : Mat) : Int := m.rows * m.cols

/-- The `Mat::empty()` test of a matrix whose data pointer is not null. -/
def empty (m : Mat) : Bool := m.total == 0

/-- The bytes of the pixel storage, `total() * elemSize()` of them. -/
def bytes (m : Mat) : List uchar :=
  (List.range (m.total * m.elemSize).toNat).map m.data

/-- The constructor `Mat(rows, cols, type, data)` over user memory.  Its only
assertion, `total() == 0 || data != NULL`, holds for a non-null pointer. -/
def ofData (rows cols : Int) (type : Nat) (data : Nat → uchar) : Except Fault Mat :=
  .ok ⟨rows, cols, type, data⟩

/-- The allocating constructor `Mat(rows, cols, type)`: `Mat::create` asserts
that no size is negative.  The fresh contents are indeterminate (here zero)
and are never read before being overwritten. -/
def create (rows cols : Int) (type : Nat) : Except Fault Mat :=
  if rows < 0 ∨ cols < 0 then .error (.cvException "s >= 0")
  else .ok ⟨rows, cols, type, fun _ => 0⟩

/-- A deep copy, `Mat::clone()`: same header, fresh storage holding the
bytes of the matrix. -/
def clone (m : Mat) : Mat :=
  { m with data := fun i => m.bytes.getD i 0 }

end Mat

/-! ## `cv::cvtColor` -/

/-! The BT.601 coefficients of `color_yuv.simd.hpp`, in 20-bit fixed point:
`R = 1.164(Y - 16) + 1.596(V - 128)`,
`G = 1.164(Y - 16) - 0.813(V - 128) - 0.391(U - 128)`,
`B = 1.164(Y - 16) + 2.018(U - 128)`. -/

def ITUR_BT_601_CY : Int := 1220542
def ITUR_BT_601_CUB : Int := 2116026
def ITUR_BT_601_CUG : Int := -409993
def ITUR_BT_601_CVG : Int := -852492
def ITUR_BT_601_CVR : Int := 1673527
def ITUR_BT_601_SHIFT : Nat := 20

/-- The chroma contributions `(ruv, guv, buv)` of a `(u, v)` pair. -/
def uvToRGBuv (u v : uchar) : Int × Int × Int :=
  let uu : Int := (u.val : Int) - 128
  let vv : Int := (v.val : Int) - 128
  ((2 : Int) ^ (ITUR_BT_601_SHIFT - 1) + ITUR_BT_601_CVR * vv,
   (2 : Int) ^ (ITUR_BT_601_SHIFT - 1) + ITUR_BT_601_CVG * vv + ITUR_BT_601_CUG * uu,
   (2 : Int) ^ (ITUR_BT_601_SHIFT - 1) + ITUR_BT_601_CUB * uu)

/-- One output pixel `[r, g, b, a]` from a luma sample and the chroma
contributions.  The shift is arithmetic (floor division). -/
def yRGBuvToRGBA (vy : uchar) (ruv guv buv : Int) : List uchar :=
  let y : Int := max 0 ((vy.val : Int) - 16) * ITUR_BT_601_CY
  [saturate_cast ((y + ruv) / 2 ^ ITUR_BT_601_SHIFT),
   saturate_cast ((y + guv) / 2 ^ ITUR_BT_601_SHIFT),
   saturate_cast ((y + buv) / 2 ^ ITUR_BT_601_SHIFT),
   255]

/-- The RGBA pixel of a `(y, u, v)` triple. -/
def yuvToRGBA (vy u v : uchar) : List uchar :=
  let c := uvToRGBuv u v
  yRGBuvToRGBA vy c.1 c.2.1 c.2.2

/-- Byte `i` of the RGBA image decoded from a two-plane 4:2:0 matrix of
`width` columns whose luma plane has `height` rows.  The chroma plane starts
at `width * height`; with `uIdx = 1` (NV21) each pair is stored `v, u`. -/
def nv21At (data : Nat → uchar) (width height : Nat) (i : Nat) : uchar :=
  let p := i / 4
  let row := p / width
  let col := p % width
  let uv := width * height + (row / 2) * width + (col / 2) * 2
  (yuvToRGBA (data (row * width + col)) (data (uv + 1)) (data uv)).getD (i % 4) 0

/-! The luminance weights 0.299, 0.587, 0.114 in 15-bit fixed point.  (Older
releases use the 14-bit weights 4899, 9617, 1868; with either set a pixel with
R = G = B keeps its value.) -/

def RY15 : Nat := 9798
def GY15 : Nat := 19235
def BY15 : Nat := 3735
def gray_shift : Nat := 15

/-- The 8-bit luminance of an RGB pixel, `RGB2Gray<uchar>`. -/
def RGB2Gray (r g b : uchar) : uchar :=
  Fin.ofNat ((r.val * RY15 + g.val * GY15 + b.val * BY15 + 2 ^ (gray_shift - 1)) / 2 ^ gray_shift)

/-- Sample `i` of the luminance image of an interleaved image with `scn`
channels per pixel, red first. -/
def grayAt (data : Nat → uchar) (scn : Nat) (i : Nat) : uchar :=
  RGB2Gray (data (i * scn)) (data (i * scn + 1)) (data (i * scn + 2))

/-- Byte `i` of the RGBA expansion of a single-channel image: the sample in
the three colour channels, 255 in the alpha channel. -/
def gray2rgbaAt (data : Nat → uchar) (i : Nat) : uchar :=
  if i % 4 = 3 then 255 else data (i / 4)

/-- The `cv::cvtColor(src, dst, code)` call for the three codes of the
program; the result is the new value of `dst`.  Divisibility tests use `%`,
which agrees with the C++ remainder on the question of being zero. -/
def cvtColor (src : Mat) (code : ColorConversionCode) : Except Fault Mat :=
  if src.empty then .error (.cvException "!_src.empty()")
  else
    match code with
    | .COLOR_YUV2RGBA_NV21 =>
      if src.channels ≠ 1 then
        .error (.cvException "Invalid number of channels in input image")
      else if src.cols % 2 ≠ 0 ∨ src.rows % 3 ≠ 0 then
        .error (.cvException "sz.width % 2 == 0 && sz.height % 3 == 0")
      else do
        let dst ← Mat.create (Int.tdiv (wrap32 (src.rows * 2)) 3) src.cols CV_8UC4
        pure { dst with data := nv21At src.data dst.cols.toNat dst.rows.toNat }
    | .COLOR_RGBA2GRAY =>
      if src.channels ≠ 3 ∧ src.channels ≠ 4 then
        .error (.cvException "Invalid number of channels in input image")
      else do
        let dst ← Mat.create src.rows src.cols CV_8UC1
        pure { dst with data := grayAt src.data src.channels }
    | .COLOR_GRAY2RGBA =>
      if src.channels ≠ 1 then
        .error (.cvException "Invalid number of channels in input image")
      else do
        let dst ← Mat.create src.rows src.cols CV_8UC4
        pure { dst with data := gray2rgbaAt src.data }

/-! ## The smoothing and edge operators -/

/-- The two OpenCV filters of the edge branch, as parameters. -/
structure ImgprocLib where
  GaussianBlur : Mat → Int × Int → Rat → Except Fault Mat
  Canny : Mat → Rat → Rat → Except Fault Mat

/-- Documented shape contract: `GaussianBlur` returns an image "of the same
size and type as src", `Canny` a "single channels 8-bit image, which has the
same size as image". -/
def ImgprocLib.SizePreserving (cv : ImgprocLib) : Prop :=
  (∀ src ksize sigma dst, cv.GaussianBlur src ksize sigma = .ok dst →
      dst.rows = src.rows ∧ dst.cols = src.cols ∧ dst.type = src.type) ∧
  (∀ src t1 t2 dst, cv.Canny src t1 t2 = .ok dst →
      dst.rows = src.rows ∧ dst.cols = src.cols ∧ dst.type = CV_8UC1)

/-- A small instance of the interface for evaluating the pipeline on sample
frames: the blur leaves the image as it is, the edge operator marks the
samples above the upper threshold. -/
def sampleLib : ImgprocLib where
  GaussianBlur := fun src _ _ => .ok src
  Canny := fun src _ t2 =>
    .ok { src with type := CV_8UC1, data := fun i => if t2 < ((src.data i).val : Rat) then 255 else 0 }

/-! ## JNI -/

/-- The part of the JNI environment the program sees: process memory. -/
structure JNIEnv where
  memory : Nat → uchar

/-- A `java.nio.ByteBuffer` handle: the address of its storage when it is a
direct buffer that can be resolved, and its capacity in bytes. -/
structure DirectBuffer where
  address : Option Nat
  capacity : Nat

/-- The `GetDirectBufferAddress` call: the pointer to the storage, or null. -/
def JNIEnv.GetDirectBufferAddress (env : JNIEnv) (buf : DirectBuffer) : Option (Nat → uchar) :=
  buf.address.map fun a i => env.memory (a + i)

/-- What a native method hands back: the bytes of the returned direct buffer
(`none` for `nullptr`) and the events of the call. -/
structure Outcome where
  ret : Option (List uchar)
  events : List Event

/-! ## processor.cpp -/

def MODE_RAW : Int := 0
def MODE_GRAYSCALE : Int := 1
def MODE_CANNY : Int := 2

def CANNY_THRESHOLD1 : Rat := 50
def CANNY_THRESHOLD2 : Rat := 150

/-- The `try` block of `yuv420ToRgba`.  The returned buffer wraps
`rgbaMat.data` itself; its bytes are those present when it is created. -/
def yuv420ToRgbaTry (yuvData : Nat → uchar) (width height : Int) : Run (List uchar) := do
  let rows := wrap32 (height + Int.tdiv height 2)
  let yuvMat ← Run.call (.MatCtor rows width CV_8UC1) (Mat.ofData rows width CV_8UC1 yuvData)
  let _ ← Run.call (.MatCtor height width CV_8UC4) (Mat.create height width CV_8UC4)
  let rgbaMat ← Run.call (.cvtColor .COLOR_YUV2RGBA_NV21) (cvtColor yuvMat .COLOR_YUV2RGBA_NV21)
  let bufferSize := (rgbaMat.total * rgbaMat.elemSize).toNat
  Run.emit (.NewDirectByteBuffer bufferSize)
  Run.pure ((List.range bufferSize).map rgbaMat.data)

/-- The native method `yuv420ToRgba`. -/
def yuv420ToRgba (env : JNIEnv) (yuvBuffer : DirectBuffer) (width height : Int) : Outcome :=
  match env.GetDirectBufferAddress yuvBuffer with
  | none => ⟨none, [.LOGE "Failed to get YUV buffer address"]⟩
  | some yuvData =>
    let r := yuv420ToRgbaTry yuvData width height
    match r.result with
    | .ok out => ⟨some out, r.events⟩
    | .error (.cvException _) => ⟨none, r.events ++ [.LOGE "OpenCV error in yuv420ToRgba: %s"]⟩
    | .error _ => ⟨none, r.events ++ [.LOGE "Unknown error in yuv420ToRgba"]⟩

/-- The `switch (mode)` of `processFrame`: the filter stage. -/
def applyMode (cv : ImgprocLib) (rgbaMat : Mat) (mode : Int) : Run Mat :=
  if mode = MODE_RAW then
    Run.call .clone (.ok rgbaMat.clone)
  else if mode = MODE_GRAYSCALE then do
    let grayMat ← Run.call (.cvtColor .COLOR_RGBA2GRAY) (cvtColor rgbaMat .COLOR_RGBA2GRAY)
    Run.call (.cvtColor .COLOR_GRAY2RGBA) (cvtColor grayMat .COLOR_GRAY2RGBA)
  else if mode = MODE_CANNY then do
    let grayMat ← Run.call (.cvtColor .COLOR_RGBA2GRAY) (cvtColor rgbaMat .COLOR_RGBA2GRAY)
    let blurredMat ← Run.call .GaussianBlur (cv.GaussianBlur grayMat (5, 5) (3 / 2))
    let edgesMat ← Run.call .Canny (cv.Canny blurredMat CANNY_THRESHOLD1 CANNY_THRESHOLD2)
    Run.call (.cvtColor .COLOR_GRAY2RGBA) (cvtColor edgesMat .COLOR_GRAY2RGBA)
  else do
    Run.emit (.LOGE "Unknown processing mode: %d")
    Run.call .clone (.ok rgbaMat.clone)

/-- The `try` block of `processFrame`. -/
def processFrameTry (cv : ImgprocLib) (yuvData : Nat → uchar) (width height mode : Int) :
    Run (List uchar) := do
  let rows := wrap32 (height + Int.tdiv height 2)
  let yuvMat ← Run.call (.MatCtor rows width CV_8UC1) (Mat.ofData rows width CV_8UC1 yuvData)
  let _ ← Run.call (.MatCtor height width CV_8UC4) (Mat.create height width CV_8UC4)
  let rgbaMat ← Run.call (.cvtColor .COLOR_YUV2RGBA_NV21) (cvtColor yuvMat .COLOR_YUV2RGBA_NV21)
  let processedMat ← applyMode cv rgbaMat mode
  let bufferSize := (processedMat.total * processedMat.elemSize).toNat
  Run.emit (.newArray bufferSize)
  Run.emit (.memcpy bufferSize)
  Run.emit (.NewDirectByteBuffer bufferSize)
  Run.pure ((List.range bufferSize).map processedMat.data)

/-- The native method `processFrame`. -/
def processFrame (cv : ImgprocLib) (env : JNIEnv) (yuvBuffer : DirectBuffer)
    (width height mode : Int) : Outcome :=
  match env.GetDirectBufferAddress yuvBuffer with
  | none => ⟨none, [.LOGE "Failed to get YUV buffer address"]⟩
  | some yuvData =>
    let r := processFrameTry cv yuvData width height mode
    match r.result with
    | .ok out => ⟨some out, r.events⟩
    | .error (.cvException _) => ⟨none, r.events ++ [.LOGE "OpenCV error in processFrame: %s"]⟩
    | .error (.stdException _) =>
      ⟨none, r.events ++ [.LOGE "Standard exception in processFrame: %s"]⟩
    | .error .unknown => ⟨none, r.events ++ [.LOGE "Unknown error in processFrame"]⟩

/-- The luma expansion performed by the NV21 conversion when both chroma
samples are 128: limited range (16..235) to full range. -/
def fullRange (y : uchar) : uchar :=
  saturate_cast
    ((max 0 ((y.val : Int) - 16) * ITUR_BT_601_CY + 2 ^ (ITUR_BT_601_SHIFT - 1)) /
      2 ^ ITUR_BT_601_SHIFT)

/-- Memory holding the same byte everywhere. -/
def flatMemory (c : uchar) : JNIEnv := ⟨fun _ => c⟩

/-- Memory holding at address 0 a 4x2 NV21 frame: luma 100, 110, .., 170, then
four neutral chroma bytes; 128 everywhere else. -/
def rampMemory : JNIEnv := ⟨fun i => if i < 8 then Fin.ofNat (100 + 10 * i) else 128⟩

/-- The values returned by the first three statements of either `try`
block (the two matrix constructors and the NV21 conversion), without the
events: the converted image, or the fault thrown. -/
def rgbaOf (yuvData : Nat → uchar) (width height : Int) : Except Fault Mat :=
  (Mat.create height width CV_8UC4).bind fun _ =>
    cvtColor ⟨wrap32 (height + Int.tdiv height 2), width, CV_8UC1, yuvData⟩ .COLOR_YUV2RGBA_NV21

/-! ## Reasoning about runs -/

theorem Run.bind_eq {α β : Type} (x : Run α) (f : α → Run β) : x >>= f = Run.bind x f := rfl

theorem Run.bind_result {α β : Type} (x : Run α) (f : α → Run β) :
    (Run.bind x f).result = x.result.bind fun a => (f a).result := by
  unfold Run.bind
  cases h : x.result <;> simp [Except.bind]

theorem yuv420ToRgbaTry_result (d : Nat → uchar) (w h : Int) :
    (yuv420ToRgbaTry d w h).result = (rgbaOf d w h).bind fun m => .ok m.bytes := by
  simp only [yuv420ToRgbaTry, rgbaOf, Run.bind_eq, Run.bind_result, Run.call,
    Run.emit, Run.pure, Mat.ofData, Except.bind, Mat.bytes]
  cases Mat.create h w CV_8UC4 with
  | error e => rfl
  | ok m => rfl

theorem processFrameTry_result (cv : ImgprocLib) (d : Nat → uchar) (w h mode : Int) :
    (processFrameTry cv d w h mode).result =
      (rgbaOf d w h).bind fun m => (applyMode cv m mode).result.bind fun p => .ok p.bytes := by
  simp only [processFrameTry, rgbaOf, Run.bind_eq, Run.bind_result, Run.call,
    Run.emit, Run.pure, Mat.ofData, Except.bind, Mat.bytes]
  cases Mat.create h w CV_8UC4 with
  | error e => rfl
  | ok m => rfl

theorem applyMode_default (cv : ImgprocLib) (m : Mat) (mode : Int)
    (h0 : mode ≠ 0) (h1 : mode ≠ 1) (h2 : mode ≠ 2) :
    (applyMode cv m mode).result = .ok m.clone := by
  simp [applyMode, MODE_RAW, MODE_GRAYSCALE, MODE_CANNY, h0, h1, h2, Run.bind_eq, Run.bind_result,
    Run.emit, Run.call, Except.bind]

theorem applyMode_raw (cv : ImgprocLib) (m : Mat) :
    (applyMode cv m 0).result = .ok m.clone := by
  simp [applyMode, MODE_RAW, Run.call]

theorem processFrame_ret (cv : ImgprocLib) (env : JNIEnv) (buf : DirectBuffer) (w h mode : Int) :
    (processFrame cv env buf w h mode).ret =
      (env.GetDirectBufferAddress buf).bind fun d =>
        (processFrameTry cv d w h mode).result.toOption := by
  unfold processFrame
  cases env.GetDirectBufferAddress buf with
  | none => rfl
  | some d =>
    simp only [Option.bind]
    cases hr : (processFrameTry cv d w h mode).result with
    | ok out => rfl
    | error e => cases e <;> rfl

theorem yuv420ToRgba_ret (env : JNIEnv) (buf : DirectBuffer) (w h : Int) :
    (yuv420ToRgba env buf w h).ret =
      (env.GetDirectBufferAddress buf).bind fun d =>
        (yuv420ToRgbaTry d w h).result.toOption := by
  unfold yuv420ToRgba
  cases env.GetDirectBufferAddress buf with
  | none => rfl
  | some d =>
    simp only [Option.bind]
    cases hr : (yuv420ToRgbaTry d w h).result with
    | ok out => rfl
    | error e => cases e <;> rfl

theorem GetDirectBufferAddress_some (env : JNIEnv) (a cap : Nat) :
    env.GetDirectBufferAddress ⟨some a, cap⟩ = some fun i => env.memory (a + i) := rfl

theorem yuv420ToRgba_ret_of_address (env : JNIEnv) (a cap : Nat) (w h : Int) :
    (yuv420ToRgba env ⟨some a, cap⟩ w h).ret =
      ((rgbaOf (fun i => env.memory (a + i)) w h).bind fun m => .ok m.bytes).toOption := by
  rw [yuv420ToRgba_ret, GetDirectBufferAddress_some, Option.some_bind, yuv420ToRgbaTry_result]

theorem processFrame_ret_of_address (cv : ImgprocLib) (env : JNIEnv) (a cap : Nat)
    (w h mode : Int) :
    (processFrame cv env ⟨some a, cap⟩ w h mode).ret =
      ((rgbaOf (fun i => env.memory (a + i)) w h).bind fun m =>
        (applyMode cv m mode).result.bind fun p => .ok p.bytes).toOption := by
  rw [processFrame_ret, GetDirectBufferAddress_some, Option.some_bind, processFrameTry_result]

theorem rgbaOf_nonpos (d : Nat → uchar) (w h : Int) (hwh : w ≤ 0 ∨ h ≤ 0) :
    ∃ what, rgbaOf d w h = .error (.cvException what) := by
  unfold rgbaOf Mat.create
  by_cases hneg : h < 0 ∨ w < 0
  · exact ⟨"s >= 0", by simp [hneg, Except.bind]⟩
  · have hz : w = 0 ∨ h = 0 := by omega
    have hempty : (Mat.mk (wrap32 (h + Int.tdiv h 2)) w CV_8UC1 d).empty = true := by
      rcases hz with rfl | rfl <;> simp [Mat.empty, Mat.total, wrap32]
    exact ⟨"!_src.empty()", by simp [hneg, Except.bind, cvtColor, hempty]⟩

theorem processFrameTry_fault (cv : ImgprocLib) (d : Nat → uchar) (w h mode : Int) (e : Fault)
    (he : rgbaOf d w h = .error e) :
    (processFrameTry cv d w h mode).result = .error e ∧
      ∀ ev ∈ (processFrameTry cv d w h mode).events,
        (∃ r c t, ev = .MatCtor r c t) ∨ ev = .cvtColor .COLOR_YUV2RGBA_NV21 := by
  revert he
  simp only [processFrameTry, rgbaOf, Run.bind_eq, Run.bind, Run.call,
    Run.emit, Run.pure, Mat.ofData, Except.bind]
  cases Mat.create h w CV_8UC4 with
  | error e1 => simp
  | ok m =>
    simp only
    cases cvtColor _ _ with
    | error e2 => simp
    | ok m2 => simp

theorem Mat.bytes_clone (m : Mat) : m.clone.bytes = m.bytes := by
  unfold Mat.clone
  apply List.ext_getElem
  · simp [Mat.bytes, Mat.total, Mat.elemSize, Mat.channels]
  · intro i h1 h2
    simp only [Mat.bytes, Mat.total, Mat.elemSize, Mat.channels, List.getElem_map,
      List.getElem_range]
    simp only [Mat.bytes, Mat.total, Mat.elemSize, Mat.channels, List.length_map,
      List.length_range] at h2
    rw [List.getD_eq_getElem _ _ (by simpa using h2)]
    simp

theorem tdiv_of_pos_divisor (x n : Int) (hn : 0 ≤ n) :
    Int.tdiv x n = if 0 ≤ x then x / n else -((-x) / n) := by
  split
  · next hx => exact Int.tdiv_eq_ediv hx hn
  · next hx =>
    have h1 : x = -(-x) := by omega
    rw [h1, Int.neg_tdiv, Int.tdiv_eq_ediv (by omega) hn]
    simp

theorem Mat.create_ok (r c : Int) (t : Nat) (m : Mat) (h : Mat.create r c t = .ok m) :
    0 ≤ r ∧ 0 ≤ c ∧ m.rows = r ∧ m.cols = c ∧ m.type = t := by
  unfold Mat.create at h
  split at h
  · cases h
  · next hn =>
    cases h
    exact ⟨by omega, by omega, rfl, rfl, rfl⟩

theorem wrap32_of_range (x : Int) (h0 : -2147483648 ≤ x) (h1 : x ≤ 2147483647) :
    wrap32 x = x := by
  unfold wrap32; omega

theorem wrap32_of_above (x : Int) (h0 : 2147483648 ≤ x) (h1 : x < 4294967296) :
    wrap32 x = x - 4294967296 := by
  unfold wrap32; omega

theorem nv21_size_arith (h D : Int) (h0 : 0 ≤ h) (hS : h + h / 2 ≤ 2147483647)
    (hD : D = Int.tdiv (wrap32 ((h + h / 2) * 2)) 3)
    (hne : h + h / 2 ≠ 0) (hdiv : (h + h / 2) % 3 = 0) (hD0 : 0 ≤ D) :
    0 < h ∧ h % 2 = 0 ∧ 3 * h ≤ 2147483647 ∧ D = h := by
  rw [tdiv_of_pos_divisor _ 3 (by omega)] at hD
  by_cases hT : (h + h / 2) * 2 ≤ 2147483647
  · rw [wrap32_of_range _ (by omega) hT] at hD
    rw [if_pos (by omega)] at hD
    omega
  · rw [wrap32_of_above _ (by omega) (by omega)] at hD
    rw [if_neg (by omega)] at hD
    omega

theorem rgbaOf_ok (d : Nat → uchar) (w h : Int) (m : Mat) (hh : NoOverflow h)
    (hok : rgbaOf d w h = .ok m) :
    (0 < w ∧ 0 < h ∧ w % 2 = 0 ∧ h % 2 = 0 ∧ 3 * h ≤ 2147483647) ∧
      m.rows = h ∧ m.cols = w ∧ m.type = CV_8UC4 ∧ m.data = nv21At d w.toNat h.toNat := by
  unfold rgbaOf at hok
  cases hc : Mat.create h w CV_8UC4 with
  | error e => simp [hc, Except.bind] at hok
  | ok m0 =>
    obtain ⟨hh0, hw0, -⟩ := Mat.create_ok _ _ _ _ hc
    unfold NoOverflow at hh
    have ht : Int.tdiv h 2 = h / 2 := Int.tdiv_eq_ediv hh0 (by omega)
    rw [ht] at hh
    rw [ht, wrap32_of_range _ hh.1 hh.2] at hok
    simp only [hc, Except.bind, cvtColor, Mat.empty, Mat.total, Mat.channels, CV_8UC1] at hok
    split at hok
    · cases hok
    · next hne =>
      simp only [Nat.zero_div, zero_add, ne_eq, not_true_eq_false, if_false] at hok
      split at hok
      · cases hok
      · next hdiv =>
        simp only [bind, Except.bind] at hok
        cases hc2 : Mat.create (Int.tdiv (wrap32 ((h + h / 2) * 2)) 3) w CV_8UC4 with
        | error e => simp [hc2] at hok
        | ok m2 =>
          obtain ⟨hr2, -, hrows, hcols, htype⟩ := Mat.create_ok _ _ _ _ hc2
          simp only [hc2, pure, Except.pure, Except.ok.injEq] at hok
          simp only [beq_iff_eq, mul_eq_zero, not_or] at hne
          obtain ⟨a2, a4, a5, a6⟩ := nv21_size_arith h _ hh0 hh.2 rfl hne.1 (by omega) hr2
          subst hok
          refine ⟨⟨by omega, a2, by omega, a4, a5⟩, by rw [hrows, a6], hcols, htype, ?_⟩
          simp [hcols, hrows, a6]


theorem cvtColor_gray_ok (src dst : Mat) (h : cvtColor src .COLOR_RGBA2GRAY = .ok dst) :
    dst.rows = src.rows ∧ dst.cols = src.cols ∧ dst.type = CV_8UC1 ∧
      dst.data = grayAt src.data src.channels := by
  unfold cvtColor at h
  split at h
  · cases h
  · simp only at h
    split at h
    · cases h
    · simp only [bind, Except.bind] at h
      cases hc : Mat.create src.rows src.cols CV_8UC1 with
      | error e => simp [hc] at h
      | ok m =>
        obtain ⟨-, -, h1, h2, h3⟩ := Mat.create_ok _ _ _ _ hc
        simp only [hc, pure, Except.pure, Except.ok.injEq] at h
        subst h
        exact ⟨h1, h2, h3, rfl⟩

theorem cvtColor_rgba_ok (src dst : Mat) (h : cvtColor src .COLOR_GRAY2RGBA = .ok dst) :
    dst.rows = src.rows ∧ dst.cols = src.cols ∧ dst.type = CV_8UC4 ∧
      dst.data = gray2rgbaAt src.data := by
  unfold cvtColor at h
  split at h
  · cases h
  · simp only at h
    split at h
    · cases h
    · simp only [bind, Except.bind] at h
      cases hc : Mat.create src.rows src.cols CV_8UC4 with
      | error e => simp [hc] at h
      | ok m =>
        obtain ⟨-, -, h1, h2, h3⟩ := Mat.create_ok _ _ _ _ hc
        simp only [hc, pure, Except.pure, Except.ok.injEq] at h
        subst h
        exact ⟨h1, h2, h3, rfl⟩

theorem applyMode_grayscale_ok (cv : ImgprocLib) (m p : Mat)
    (h : (applyMode cv m MODE_GRAYSCALE).result = .ok p) :
    p.rows = m.rows ∧ p.cols = m.cols ∧ p.type = CV_8UC4 ∧
      p.data = gray2rgbaAt (grayAt m.data m.channels) := by
  simp only [applyMode, MODE_RAW, MODE_GRAYSCALE, one_ne_zero, if_false, if_true,
    Run.bind_eq, Run.bind_result, Run.call, Except.bind] at h
  cases hg : cvtColor m .COLOR_RGBA2GRAY with
  | error e => simp [hg] at h
  | ok g =>
    simp only [hg] at h
    obtain ⟨g1, g2, -, g4⟩ := cvtColor_gray_ok _ _ hg
    obtain ⟨p1, p2, p3, p4⟩ := cvtColor_rgba_ok _ _ h
    exact ⟨by rw [p1, g1], by rw [p2, g2], p3, by rw [p4, g4]⟩

theorem applyMode_canny_ok (cv : ImgprocLib) (m p : Mat)
    (h : (applyMode cv m MODE_CANNY).result = .ok p) :
    ∃ grayMat blurredMat edgesMat,
      cvtColor m .COLOR_RGBA2GRAY = .ok grayMat ∧
      cv.GaussianBlur grayMat (5, 5) (3 / 2) = .ok blurredMat ∧
      cv.Canny blurredMat CANNY_THRESHOLD1 CANNY_THRESHOLD2 = .ok edgesMat ∧
      cvtColor edgesMat .COLOR_GRAY2RGBA = .ok p := by
  simp only [applyMode, MODE_RAW, MODE_GRAYSCALE, MODE_CANNY, OfNat.ofNat_ne_zero,
    OfNat.ofNat_ne_one, if_false, if_true, Run.bind_eq, Run.bind_result, Run.call,
    Except.bind] at h
  cases hg : cvtColor m .COLOR_RGBA2GRAY with
  | error e => simp [hg] at h
  | ok g =>
    simp only [hg] at h
    cases hb : cv.GaussianBlur g (5, 5) (3 / 2) with
    | error e => simp [hb] at h
    | ok b =>
      simp only [hb] at h
      cases hc : cv.Canny b CANNY_THRESHOLD1 CANNY_THRESHOLD2 with
      | error e => simp [hc] at h
      | ok e =>
        simp only [hc] at h
        exact ⟨g, b, e, rfl, hb, hc, h⟩

theorem applyMode_shape (cv : ImgprocLib) (hcv : cv.SizePreserving) (m p : Mat) (mode : Int)
    (ht : m.type = CV_8UC4) (h : (applyMode cv m mode).result = .ok p) :
    p.rows = m.rows ∧ p.cols = m.cols ∧ p.type = CV_8UC4 := by
  by_cases h0 : mode = 0
  · subst h0
    rw [applyMode_raw] at h
    cases h
    exact ⟨rfl, rfl, ht⟩
  by_cases h1 : mode = 1
  · subst h1
    obtain ⟨a, b, c, -⟩ := applyMode_grayscale_ok cv m p h
    exact ⟨a, b, c⟩
  by_cases h2 : mode = 2
  · subst h2
    obtain ⟨g, b, e, hg, hb, he, hp⟩ := applyMode_canny_ok cv m p h
    obtain ⟨g1, g2, -, -⟩ := cvtColor_gray_ok _ _ hg
    obtain ⟨b1, b2, -⟩ := hcv.1 _ _ _ _ hb
    obtain ⟨e1, e2, -⟩ := hcv.2 _ _ _ _ he
    obtain ⟨p1, p2, p3, -⟩ := cvtColor_rgba_ok _ _ hp
    exact ⟨by rw [p1, e1, b1, g1], by rw [p2, e2, b2, g2], p3⟩
  · rw [applyMode_default cv m mode h0 h1 h2] at h
    cases h
    exact ⟨rfl, rfl, ht⟩

theorem processFrameTry_ok_events (cv : ImgprocLib) (d : Nat → uchar) (w h mode : Int)
    (out : List uchar) (hok : (processFrameTry cv d w h mode).result = .ok out) :
    ∃ pre, (processFrameTry cv d w h mode).events =
      pre ++ [.newArray out.length, .memcpy out.length, .NewDirectByteBuffer out.length] := by
  revert hok
  simp only [processFrameTry, Run.bind_eq, Run.bind, Run.call,
    Run.emit, Run.pure, Mat.ofData]
  cases Mat.create h w CV_8UC4 with
  | error e => simp
  | ok m =>
    simp only
    cases cvtColor _ _ with
    | error e2 => simp
    | ok m2 =>
      simp only
      cases (applyMode cv m2 mode).result with
      | error e3 => simp
      | ok p =>
        simp only [Except.ok.injEq]
        intro hout
        subst hout
        refine ⟨[.MatCtor (wrap32 (h + Int.tdiv h 2)) w CV_8UC1, .MatCtor h w CV_8UC4,
          .cvtColor .COLOR_YUV2RGBA_NV21] ++ (applyMode cv m2 mode).events, ?_⟩
        simp


theorem processFrame_ok_inv (cv : ImgprocLib) (env : JNIEnv) (buf : DirectBuffer)
    (w h mode : Int) (out : List uchar) (hok : (processFrame cv env buf w h mode).ret = some out) :
    ∃ d, env.GetDirectBufferAddress buf = some d ∧
      (processFrameTry cv d w h mode).result = .ok out ∧
      (processFrame cv env buf w h mode).events = (processFrameTry cv d w h mode).events := by
  unfold processFrame at hok ⊢
  cases hd : env.GetDirectBufferAddress buf with
  | none => simp [hd] at hok
  | some d =>
    simp only [hd] at hok ⊢
    cases hr : (processFrameTry cv d w h mode).result with
    | ok o =>
      simp only [hr, Option.some.injEq] at hok
      subst hok
      exact ⟨d, rfl, hr, by simp [hr]⟩
    | error e => cases e <;> simp [hr] at hok

theorem processFrameTry_ok_inv (cv : ImgprocLib) (d : Nat → uchar) (w h mode : Int)
    (out : List uchar) (hok : (processFrameTry cv d w h mode).result = .ok out) :
    ∃ m p, rgbaOf d w h = .ok m ∧ (applyMode cv m mode).result = .ok p ∧ out = p.bytes := by
  rw [processFrameTry_result] at hok
  cases hm : rgbaOf d w h with
  | error e => simp [hm, Except.bind] at hok
  | ok m =>
    simp only [hm, Except.bind] at hok
    cases hp : (applyMode cv m mode).result with
    | error e => simp [hp] at hok
    | ok p =>
      simp only [hp, Except.ok.injEq] at hok
      exact ⟨m, p, rfl, hp, hok.symm⟩

theorem Mat.bytes_length (p : Mat) : p.bytes.length = (p.rows * p.cols * p.channels).toNat := by
  simp [Mat.bytes, Mat.total, Mat.elemSize]

theorem Mat.bytes_getElem? (p : Mat) (i : Nat) (hi : i < p.bytes.length) :
    p.bytes[i]? = some (p.data i) := by
  rw [List.getElem?_eq_getElem hi]
  simp [Mat.bytes]

theorem bytes_of_gray2rgba (p : Mat) (g : Nat → uchar) (ht : p.type = CV_8UC4)
    (hd : p.data = gray2rgbaAt g) :
    p.bytes.length % 4 = 0 ∧ ∀ k, 4 * k + 3 < p.bytes.length →
      p.bytes[4 * k]? = some (g k) ∧ p.bytes[4 * k + 1]? = some (g k) ∧
      p.bytes[4 * k + 2]? = some (g k) ∧ p.bytes[4 * k + 3]? = some 255 := by
  constructor
  · rw [Mat.bytes_length]
    simp only [Mat.channels, ht, CV_8UC4]
    omega
  · intro k hk
    rw [Mat.bytes_getElem? p _ (by omega), Mat.bytes_getElem? p _ (by omega),
      Mat.bytes_getElem? p _ (by omega), Mat.bytes_getElem? p _ hk, hd]
    have e0 : (4 * k) / 4 = k := by omega
    have e1 : (4 * k + 1) / 4 = k := by omega
    have e2 : (4 * k + 2) / 4 = k := by omega
    have m0 : (4 * k) % 4 = 0 := by omega
    have m1 : (4 * k + 1) % 4 = 1 := by omega
    have m2 : (4 * k + 2) % 4 = 2 := by omega
    have m3 : (4 * k + 3) % 4 = 3 := by omega
    simp [gray2rgbaAt, e0, e1, e2, m0, m1, m2, m3]



theorem rgbaOf_even (d : Nat → uchar) (w h : Nat) (hw : 0 < w) (hh : 0 < h)
    (hwe : w % 2 = 0) (hhe : h % 2 = 0) (hfit : 3 * h ≤ 2147483647) :
    rgbaOf d w h = .ok ⟨h, w, CV_8UC4, nv21At d w h⟩ := by
  have ht : Int.tdiv (h : Int) 2 = (h : Int) / 2 := Int.tdiv_eq_ediv (by omega) (by omega)
  have hS : wrap32 ((h : Int) + (h : Int) / 2) = (h : Int) + (h : Int) / 2 :=
    wrap32_of_range _ (by omega) (by omega)
  have hX : wrap32 (((h : Int) + (h : Int) / 2) * 2) = 3 * (h : Int) := by
    rw [wrap32_of_range _ (by omega) (by omega)]; omega
  have hD : Int.tdiv (3 * (h : Int)) 3 = (h : Int) := by
    rw [Int.tdiv_eq_ediv (by omega) (by omega)]; omega
  have hne : ¬ (((h : Int) + (h : Int) / 2) * (w : Int) = 0) := by
    intro h0
    rcases Int.mul_eq_zero.mp h0 with h1 | h1 <;> omega
  have hcr : ¬ ((h : Int) < 0 ∨ (w : Int) < 0) := by omega
  have hpar : ¬ (¬ (w : Int) % 2 = 0 ∨ ¬ ((h : Int) + (h : Int) / 2) % 3 = 0) := by omega
  unfold rgbaOf
  rw [ht, hS]
  unfold cvtColor Mat.create
  simp only [hcr, if_false, Except.bind, Mat.empty, Mat.total, beq_iff_eq, hne]
  have hch : (Mat.mk ((h : Int) + (h : Int) / 2) w CV_8UC1 d).channels = 1 := by
    simp [Mat.channels, CV_8UC1]
  have hpar2 : ¬ ((w : Int) % 2 ≠ 0 ∨ ((h : Int) + (h : Int) / 2) % 3 ≠ 0) := by omega
  have hcr2 : ¬ ((h : Int) < 0 ∨ (w : Int) < 0) := by omega
  rw [if_neg (by rw [hch]; simp), if_neg hpar2, hX, hD, if_neg hcr2]
  simp only [bind, Except.bind, pure, Except.pure, Int.toNat_ofNat]

theorem yuvToRGBA_length (y u v : uchar) : (yuvToRGBA y u v).length = 4 := rfl

theorem nv21At_eq (d : Nat → uchar) (w h k c : Nat) (hc : c < 4) :
    nv21At d w h (4 * k + c) =
      (yuvToRGBA (d k) (d (w * h + k / w / 2 * w + k % w / 2 * 2 + 1))
        (d (w * h + k / w / 2 * w + k % w / 2 * 2))).getD c 0 := by
  have e1 : (4 * k + c) / 4 = k := by omega
  have e2 : (4 * k + c) % 4 = c := by omega
  have e3 : k / w * w + k % w = k := Nat.div_add_mod' k w
  simp only [nv21At, e1, e2, e3]

theorem nv21At_pixel (d : Nat → uchar) (w h k c : Nat) (hc : c < 4) :
    some (nv21At d w h (4 * k + c)) =
      (yuvToRGBA (d k) (d (w * h + k / w / 2 * w + k % w / 2 * 2 + 1))
        (d (w * h + k / w / 2 * w + k % w / 2 * 2)))[c]? := by
  rw [nv21At_eq d w h k c hc, List.getElem?_eq_getElem (by rw [yuvToRGBA_length]; exact hc),
    List.getD_eq_getElem _ _ (by rw [yuvToRGBA_length]; exact hc)]

theorem rgba_bytes_length (f : Nat → uchar) (w h : Nat) :
    (Mat.mk h w CV_8UC4 f).bytes.length = w * h * 4 := by
  rw [Mat.bytes_length]
  simp only [Mat.channels, CV_8UC4]
  have h1 : ((h : Int) * (w : Int) * ((24 / 8 + 1 : Nat) : Int)) = ((w * h * 4 : Nat) : Int) := by
    push_cast; ring
  rw [h1, Int.toNat_ofNat]

theorem nv21_bytes_getElem? (d : Nat → uchar) (w h k c : Nat) (hk : k < w * h) (hc : c < 4) :
    (Mat.mk h w CV_8UC4 (nv21At d w h)).bytes[4 * k + c]? =
      (yuvToRGBA (d k) (d (w * h + k / w / 2 * w + k % w / 2 * 2 + 1))
        (d (w * h + k / w / 2 * w + k % w / 2 * 2)))[c]? := by
  rw [Mat.bytes_getElem? _ _ (by rw [rgba_bytes_length]; omega)]
  exact nv21At_pixel d w h k c hc

theorem chroma_offset_lt (w h k : Nat) (hk : k < w * h) (hwe : w % 2 = 0) (hhe : h % 2 = 0) :
    w * h + k / w / 2 * w + k % w / 2 * 2 + 1 < w * h * 3 / 2 := by
  have hw : 0 < w := by
    rcases Nat.eq_zero_or_pos w with h0 | h0
    · subst h0; simp at hk
    · exact h0
  have hrow : k / w < h := by
    rw [Nat.div_lt_iff_lt_mul hw]; rw [Nat.mul_comm] at hk; exact hk
  have hcol : k % w < w := Nat.mod_lt _ hw
  obtain ⟨h2, rfl⟩ : ∃ h2, h = 2 * h2 := ⟨h / 2, by omega⟩
  have hr2 : k / w / 2 + 1 ≤ h2 := by omega
  have hmul : (k / w / 2 + 1) * w ≤ h2 * w := Nat.mul_le_mul_right w hr2
  have e : w * (2 * h2) * 3 / 2 = w * (2 * h2) + h2 * w := by
    have : w * (2 * h2) * 3 = 2 * (w * (2 * h2) + h2 * w) + 0 := by ring
    omega
  rw [e]
  have hexp : (k / w / 2 + 1) * w = k / w / 2 * w + w := by ring
  omega

theorem RGB2Gray_same (v : uchar) : RGB2Gray v v v = v := by
  apply Fin.ext
  have hv := v.isLt
  simp only [RGB2Gray, RY15, GY15, BY15, gray_shift, Fin.ofNat, Fin.val_mk]
  omega

theorem yuvToRGBA_neutral (y : uchar) :
    yuvToRGBA y 128 128 = [fullRange y, fullRange y, fullRange y, 255] := by
  have h128 : (((128 : uchar).val : Nat) : Int) - 128 = 0 := by decide
  simp only [yuvToRGBA, uvToRGBuv, yRGBuvToRGBA, fullRange, h128, mul_zero, add_zero]

set_option maxRecDepth 100000 in
theorem fullRange_fixed_points :
    ∀ y : uchar, fullRange y = y ↔ (y = 0 ∨ (111 ≤ y ∧ y ≤ 116) ∨ y = 255) := by
  decide

theorem grayAt_nv21_neutral (d : Nat → uchar) (w h k : Nat)
    (hu : d (w * h + k / w / 2 * w + k % w / 2 * 2 + 1) = 128)
    (hv : d (w * h + k / w / 2 * w + k % w / 2 * 2) = 128) :
    grayAt (nv21At d w h) 4 k = fullRange (d k) := by
  have e0 : k * 4 = 4 * k + 0 := by omega
  have e1 : k * 4 + 1 = 4 * k + 1 := by omega
  have e2 : k * 4 + 2 = 4 * k + 2 := by omega
  unfold grayAt
  rw [e1, e2, e0, nv21At_eq d w h k 0 (by omega), nv21At_eq d w h k 1 (by omega),
    nv21At_eq d w h k 2 (by omega), hu, hv, yuvToRGBA_neutral]
  simp [RGB2Gray_same]

theorem applyMode_grayscale_total (cv : ImgprocLib) (m : Mat) (ht : m.type = CV_8UC4)
    (hr : 0 < m.rows) (hc : 0 < m.cols) :
    (applyMode cv m MODE_GRAYSCALE).result =
      .ok ⟨m.rows, m.cols, CV_8UC4, gray2rgbaAt (grayAt m.data 4)⟩ := by
  have hne : ¬ (m.rows * m.cols = 0) := by
    intro h0
    rcases Int.mul_eq_zero.mp h0 with h1 | h1 <;> omega
  have hcr : ¬ (m.rows < 0 ∨ m.cols < 0) := by omega
  have hch : m.channels = 4 := by simp [Mat.channels, ht, CV_8UC4]
  have hg : cvtColor m .COLOR_RGBA2GRAY = .ok ⟨m.rows, m.cols, CV_8UC1, grayAt m.data 4⟩ := by
    unfold cvtColor Mat.create
    simp only [Mat.empty, Mat.total, beq_iff_eq, hne, hch, hcr]
    rfl
  have hp : cvtColor ⟨m.rows, m.cols, CV_8UC1, grayAt m.data 4⟩ .COLOR_GRAY2RGBA =
      .ok ⟨m.rows, m.cols, CV_8UC4, gray2rgbaAt (grayAt m.data 4)⟩ := by
    unfold cvtColor Mat.create
    simp only [Mat.empty, Mat.total, beq_iff_eq, hne, hcr, Mat.channels, CV_8UC1]
    rfl
  simp only [applyMode, MODE_RAW, MODE_GRAYSCALE, one_ne_zero, if_false, if_true,
    Run.bind_eq, Run.bind_result, Run.call, Except.bind, hg, hp]

theorem sampleLib_sizePreserving : sampleLib.SizePreserving := by
  constructor
  · intro src ksize sigma dst h
    simp only [sampleLib, Except.ok.injEq] at h
    subst h
    exact ⟨rfl, rfl, rfl⟩
  · intro src t1 t2 dst h
    simp only [sampleLib, Except.ok.injEq] at h
    subst h
    exact ⟨rfl, rfl, rfl⟩

/-- C1: for every source buffer, width and height, and every mode other than
0, 1 and 2, `processFrame` returns what it returns with mode 0 (Raw): null in
the same cases, and otherwise the same bytes. -/
theorem processFrame_unknown_mode_as_raw (cv : ImgprocLib) (env : JNIEnv) (buf : DirectBuffer)
    (width height mode : Int) (h0 : mode ≠ 0) (h1 : mode ≠ 1) (h2 : mode ≠ 2) :
    (processFrame cv env buf width height mode).ret =
      (processFrame cv env buf width height MODE_RAW).ret := by
  simp only [processFrame_ret, processFrameTry_result, applyMode_default cv _ mode h0 h1 h2,
    MODE_RAW, applyMode_raw]

/-- Instance of the mode fallback: mode 99 on the sample 4x2 frame. -/
theorem processFrame_unknown_mode_as_raw_witness :
    (99 : Int) ≠ 0 ∧ (99 : Int) ≠ 1 ∧ (99 : Int) ≠ 2 ∧
      (processFrame sampleLib rampMemory ⟨some 0, 12⟩ 4 2 99).ret =
        (processFrame sampleLib rampMemory ⟨some 0, 12⟩ 4 2 MODE_RAW).ret :=
  ⟨by decide, by decide, by decide,
    processFrame_unknown_mode_as_raw sampleLib rampMemory ⟨some 0, 12⟩ 4 2 99
      (by decide) (by decide) (by decide)⟩

/-- C2: when `GetDirectBufferAddress` yields null, `processFrame` returns null
for every width, height and mode, and the only event of the call is the error
log line: no matrix is built, no conversion or filter is run, no fault
escapes. -/
theorem processFrame_null_buffer (cv : ImgprocLib) (env : JNIEnv) (buf : DirectBuffer)
    (width height mode : Int) (hnull : env.GetDirectBufferAddress buf = none) :
    (processFrame cv env buf width height mode).ret = none ∧
      (processFrame cv env buf width height mode).events =
        [Event.LOGE "Failed to get YUV buffer address"] := by
  simp [processFrame, hnull]

/-- Instance of the null-address case: a handle without address. -/
theorem processFrame_null_buffer_witness :
    rampMemory.GetDirectBufferAddress ⟨none, 12⟩ = none ∧
      (processFrame sampleLib rampMemory ⟨none, 12⟩ 4 2 MODE_CANNY).ret = none ∧
      (processFrame sampleLib rampMemory ⟨none, 12⟩ 4 2 MODE_CANNY).events =
        [Event.LOGE "Failed to get YUV buffer address"] :=
  ⟨rfl, processFrame_null_buffer sampleLib rampMemory ⟨none, 12⟩ 4 2 MODE_CANNY rfl⟩

/-- C3: for every resolvable source buffer and every mode, if `width <= 0` or
`height <= 0` then `processFrame` returns null, and neither the output array
nor the result buffer is created. -/
theorem processFrame_nonpositive_dims (cv : ImgprocLib) (env : JNIEnv) (buf : DirectBuffer)
    (width height mode : Int) (hres : (env.GetDirectBufferAddress buf).isSome)
    (hdim : width ≤ 0 ∨ height ≤ 0) :
    (processFrame cv env buf width height mode).ret = none ∧
      ∀ n, Event.newArray n ∉ (processFrame cv env buf width height mode).events ∧
        Event.NewDirectByteBuffer n ∉ (processFrame cv env buf width height mode).events := by
  obtain ⟨d, hd⟩ := Option.isSome_iff_exists.mp hres
  obtain ⟨what, hf⟩ := rgbaOf_nonpos d width height hdim
  obtain ⟨hr, hev⟩ := processFrameTry_fault cv d width height mode _ hf
  unfold processFrame
  simp only [hd, hr, true_and]
  intro n
  constructor
  · intro hmem
    rcases List.mem_append.mp hmem with h1 | h1
    · rcases hev _ h1 with ⟨r, c, t, h2⟩ | h2 <;> cases h2
    · simp at h1
  · intro hmem
    rcases List.mem_append.mp hmem with h1 | h1
    · rcases hev _ h1 with ⟨r, c, t, h2⟩ | h2 <;> cases h2
    · simp at h1

/-- Instance of the dimension check: height -2 on a resolvable buffer. -/
theorem processFrame_nonpositive_dims_witness :
    (rampMemory.GetDirectBufferAddress ⟨some 0, 12⟩).isSome ∧ ((4 : Int) ≤ 0 ∨ (-2 : Int) ≤ 0) ∧
      (processFrame sampleLib rampMemory ⟨some 0, 12⟩ 4 (-2) MODE_GRAYSCALE).ret = none ∧
      ∀ n, Event.newArray n ∉
          (processFrame sampleLib rampMemory ⟨some 0, 12⟩ 4 (-2) MODE_GRAYSCALE).events ∧
        Event.NewDirectByteBuffer n ∉
          (processFrame sampleLib rampMemory ⟨some 0, 12⟩ 4 (-2) MODE_GRAYSCALE).events :=
  ⟨rfl, by decide,
    processFrame_nonpositive_dims sampleLib rampMemory ⟨some 0, 12⟩ 4 (-2) MODE_GRAYSCALE rfl
      (by decide)⟩

/-- C5: whenever `processFrame` returns a buffer, for mode 0, 1, 2 or any
other, the buffer has exactly `width * height * 4` bytes, and the call ends by
allocating an array of that size, copying that many bytes into it and
wrapping it.  Assumes that `GaussianBlur` and `Canny` keep the image size, and
that `height + height / 2` fits a `jint`. -/
theorem processFrame_output_size (cv : ImgprocLib) (hcv : cv.SizePreserving) (env : JNIEnv)
    (buf : DirectBuffer) (width height mode : Int) (hh : NoOverflow height) (out : List uchar)
    (hok : (processFrame cv env buf width height mode).ret = some out) :
    (out.length : Int) = width * height * 4 ∧
      ∃ pre, (processFrame cv env buf width height mode).events =
        pre ++ [.newArray out.length, .memcpy out.length, .NewDirectByteBuffer out.length] := by
  obtain ⟨d, -, hr, hev⟩ := processFrame_ok_inv cv env buf width height mode out hok
  obtain ⟨m, p, hm, hp, hout⟩ := processFrameTry_ok_inv cv d width height mode out hr
  obtain ⟨⟨hw, hh0, -⟩, m1, m2, m3, -⟩ := rgbaOf_ok d width height m hh hm
  obtain ⟨p1, p2, p3⟩ := applyMode_shape cv hcv m p mode m3 hp
  refine ⟨?_, ?_⟩
  · rw [hout, Mat.bytes_length, p1, p2, m1, m2]
    simp only [Mat.channels, p3, CV_8UC4]
    have hpos : 0 ≤ height * width := Int.mul_nonneg (by omega) (by omega)
    have hcomm : width * height = height * width := Int.mul_comm _ _
    generalize height * width = x at hpos hcomm ⊢
    generalize width * height = y at hcomm ⊢
    omega
  · rw [hev]
    exact processFrameTry_ok_events cv d width height mode out hr

/-- Instance of the size statement: the sample 4x2 frame in mode 2 gives 32 bytes. -/
theorem processFrame_output_size_witness :
    sampleLib.SizePreserving ∧ NoOverflow 2 ∧
      (processFrame sampleLib rampMemory ⟨some 0, 12⟩ 4 2 MODE_CANNY).ret =
        some [0, 0, 0, 255, 0, 0, 0, 255, 0, 0, 0, 255, 0, 0, 0, 255, 0, 0, 0, 255,
          255, 255, 255, 255, 255, 255, 255, 255, 255, 255, 255, 255] ∧
      ((32 : Nat) : Int) = 4 * 2 * 4 :=
  ⟨sampleLib_sizePreserving, by decide, by decide,
    (processFrame_output_size sampleLib sampleLib_sizePreserving rampMemory ⟨some 0, 12⟩ 4 2
      MODE_CANNY (by decide)
      [0, 0, 0, 255, 0, 0, 0, 255, 0, 0, 0, 255, 0, 0, 0, 255, 0, 0, 0, 255,
        255, 255, 255, 255, 255, 255, 255, 255, 255, 255, 255, 255] (by decide)).1⟩

/-- C6: the Raw stage (`clone`) returns an image with the same header and the
same bytes as its input, applying it twice gives the same bytes as applying
it once, and the bytes `processFrame` returns with mode 0 are exactly those
of the converter `yuv420ToRgba` for the same buffer, width and height (null in
the same cases). -/
theorem processFrame_raw_is_converter_output (cv : ImgprocLib) (env : JNIEnv)
    (buf : DirectBuffer) (width height : Int) (rgbaMat : Mat) :
    (applyMode cv rgbaMat MODE_RAW).result = .ok rgbaMat.clone ∧
      rgbaMat.clone.bytes = rgbaMat.bytes ∧
      (rgbaMat.clone.rows = rgbaMat.rows ∧ rgbaMat.clone.cols = rgbaMat.cols ∧
        rgbaMat.clone.type = rgbaMat.type) ∧
      rgbaMat.clone.clone.bytes = rgbaMat.clone.bytes ∧
      (processFrame cv env buf width height MODE_RAW).ret =
        (yuv420ToRgba env buf width height).ret := by
  refine ⟨applyMode_raw cv _, Mat.bytes_clone _, ⟨rfl, rfl, rfl⟩, Mat.bytes_clone _, ?_⟩
  simp only [processFrame_ret, yuv420ToRgba_ret, processFrameTry_result, yuv420ToRgbaTry_result,
    MODE_RAW, applyMode_raw, Except.bind, Mat.bytes_clone]

/-- C7, as stated, fails: for the 4x2 frame with luma 100, 110, .., 170 and
neutral chroma, mode 1 returns luminances 98, 109, .., 179, not the input
luma values. -/
theorem grayscale_4x2_luma_counterexample :
    (rampMemory.memory 8 = 128 ∧ rampMemory.memory 9 = 128 ∧ rampMemory.memory 10 = 128 ∧
        rampMemory.memory 11 = 128) ∧
      (List.range 8).map rampMemory.memory = [100, 110, 120, 130, 140, 150, 160, 170] ∧
      (processFrame sampleLib rampMemory ⟨some 0, 12⟩ 4 2 MODE_GRAYSCALE).ret =
        some [98, 98, 98, 255, 109, 109, 109, 255, 121, 121, 121, 255, 133, 133, 133, 255,
          144, 144, 144, 255, 156, 156, 156, 255, 168, 168, 168, 255, 179, 179, 179, 255] ∧
      (processFrame sampleLib rampMemory ⟨some 0, 12⟩ 4 2 MODE_GRAYSCALE).ret ≠
        some [100, 100, 100, 255, 110, 110, 110, 255, 120, 120, 120, 255, 130, 130, 130, 255,
          140, 140, 140, 255, 150, 150, 150, 255, 160, 160, 160, 255, 170, 170, 170, 255] := by
  decide

/-- C7, amended: for a 4x2 planar buffer of 12 bytes with luma `Y_0..Y_7` and
four neutral chroma bytes, mode 1 returns 32 bytes in which pixel `i` is
`(g, g, g, 255)` with `g = fullRange Y_i`, the limited-to-full range
expansion `min 255 ((max 0 (Y_i - 16) * 1220542 + 2^19) >> 20)`; this value
equals `Y_i` only for `Y_i` in `{0, 111, .., 116, 255}`. -/
theorem processFrame_grayscale_4x2 (cv : ImgprocLib) (env : JNIEnv) (a : Nat)
    (hchroma : ∀ j, 8 ≤ j → j < 12 → env.memory (a + j) = 128) :
    (∃ out, (processFrame cv env ⟨some a, 12⟩ 4 2 MODE_GRAYSCALE).ret = some out ∧
      out.length = 32 ∧
      ∀ i, i < 8 →
        out[4 * i]? = some (fullRange (env.memory (a + i))) ∧
        out[4 * i + 1]? = some (fullRange (env.memory (a + i))) ∧
        out[4 * i + 2]? = some (fullRange (env.memory (a + i))) ∧
        out[4 * i + 3]? = some 255) ∧
      ∀ y : uchar, fullRange y = y ↔ (y = 0 ∨ (111 ≤ y ∧ y ≤ 116) ∨ y = 255) := by
  refine ⟨?_, fullRange_fixed_points⟩
  have hm := rgbaOf_even (fun i => env.memory (a + i)) 4 2 (by omega) (by omega) (by omega)
    (by omega) (by omega)
  have hp := applyMode_grayscale_total cv
    (Mat.mk ((2 : Nat) : Int) ((4 : Nat) : Int) CV_8UC4 (nv21At (fun i => env.memory (a + i)) 4 2))
    rfl (by simp) (by simp)
  obtain ⟨-, hpx⟩ := bytes_of_gray2rgba
    (Mat.mk ((2 : Nat) : Int) ((4 : Nat) : Int) CV_8UC4
      (gray2rgbaAt (grayAt (nv21At (fun i => env.memory (a + i)) 4 2) 4)))
    (grayAt (nv21At (fun i => env.memory (a + i)) 4 2) 4) rfl rfl
  have hlen : (Mat.mk ((2 : Nat) : Int) ((4 : Nat) : Int) CV_8UC4
      (gray2rgbaAt (grayAt (nv21At (fun i => env.memory (a + i)) 4 2) 4))).bytes.length = 32 := by
    rw [rgba_bytes_length]
  refine ⟨_, ?_, hlen, ?_⟩
  · have e4 : (4 : Int) = ((4 : Nat) : Int) := rfl
    have e2 : (2 : Int) = ((2 : Nat) : Int) := rfl
    rw [processFrame_ret_of_address, e4, e2, hm]
    simp only [Except.bind]
    rw [hp]
    rfl
  · intro i hi
    obtain ⟨b0, b1, b2, b3⟩ := hpx i (by rw [hlen]; omega)
    have hg : grayAt (nv21At (fun i => env.memory (a + i)) 4 2) 4 i =
        fullRange (env.memory (a + i)) := by
      apply grayAt_nv21_neutral
      · exact hchroma _ (by omega) (by omega)
      · exact hchroma _ (by omega) (by omega)
    rw [hg] at b0 b1 b2
    exact ⟨b0, b1, b2, b3⟩

/-- Instance of the amended luma statement on the sample 4x2 frame. -/
theorem processFrame_grayscale_4x2_witness :
    (∀ j, 8 ≤ j → j < 12 → rampMemory.memory (0 + j) = 128) ∧
      ∃ out, (processFrame sampleLib rampMemory ⟨some 0, 12⟩ 4 2 MODE_GRAYSCALE).ret = some out ∧
        out.length = 32 ∧
        ∀ i, i < 8 →
          out[4 * i]? = some (fullRange (rampMemory.memory (0 + i))) ∧
          out[4 * i + 1]? = some (fullRange (rampMemory.memory (0 + i))) ∧
          out[4 * i + 2]? = some (fullRange (rampMemory.memory (0 + i))) ∧
          out[4 * i + 3]? = some 255 :=
  ⟨fun j h1 _ => by simp only [rampMemory]; rw [if_neg (by omega)],
    (processFrame_grayscale_4x2 sampleLib rampMemory 0
      (fun j h1 _ => by simp only [rampMemory]; rw [if_neg (by omega)])).1⟩

/-- C8, as stated, fails: a 1x1 all-zero frame is rejected (null), and for a
2x2 all-zero frame every pixel is `(0, 154, 0, 255)`, whereas the conversion
of luma 0 with neutral chroma (128) is `(0, 0, 0, 255)`. -/
theorem zero_frame_is_green_counterexample :
    (yuv420ToRgba (flatMemory 0) ⟨some 0, 1 * 1 * 3 / 2⟩ 1 1).ret = none ∧
      (yuv420ToRgba (flatMemory 0) ⟨some 0, 2 * 2 * 3 / 2⟩ 2 2).ret =
        some [0, 154, 0, 255, 0, 154, 0, 255, 0, 154, 0, 255, 0, 154, 0, 255] ∧
      yuvToRGBA 0 128 128 = [0, 0, 0, 255] := by
  decide

/-- C8, amended: for every even `width > 0` and even `height > 0` (with
`3 * height` in `jint` range) and a correctly sized planar input of
`width * height * 3 / 2` zero bytes, `yuv420ToRgba` succeeds and produces
exactly `width * height * 4` bytes in which every pixel is `(0, 154, 0, 255)`,
the NV21 conversion of luma 0 with both chroma bytes 0. -/
theorem yuv420ToRgba_zero_frame (env : JNIEnv) (a w h : Nat) (hw : 0 < w) (hh : 0 < h)
    (hwe : w % 2 = 0) (hhe : h % 2 = 0) (hfit : 3 * h ≤ 2147483647)
    (hzero : ∀ i, i < w * h * 3 / 2 → env.memory (a + i) = 0) :
    yuvToRGBA 0 0 0 = [0, 154, 0, 255] ∧
      ∃ out, (yuv420ToRgba env ⟨some a, w * h * 3 / 2⟩ w h).ret = some out ∧
        out.length = w * h * 4 ∧
        ∀ k, k < w * h →
          out[4 * k]? = some 0 ∧ out[4 * k + 1]? = some 154 ∧ out[4 * k + 2]? = some 0 ∧
          out[4 * k + 3]? = some 255 := by
  have hm := rgbaOf_even (fun i => env.memory (a + i)) w h hw hh hwe hhe hfit
  refine ⟨by decide, (Mat.mk h w CV_8UC4 (nv21At (fun i => env.memory (a + i)) w h)).bytes, ?_,
    rgba_bytes_length _ w h, ?_⟩
  · rw [yuv420ToRgba_ret_of_address, hm]
    rfl
  · intro k hk
    have hoff := chroma_offset_lt w h k hk hwe hhe
    have hy : env.memory (a + k) = 0 := hzero k (by omega)
    have hu : env.memory (a + (w * h + k / w / 2 * w + k % w / 2 * 2 + 1)) = 0 :=
      hzero _ hoff
    have hv : env.memory (a + (w * h + k / w / 2 * w + k % w / 2 * 2)) = 0 :=
      hzero _ (by omega)
    have hpix : ∀ c, c < 4 →
        (Mat.mk (h : Int) (w : Int) CV_8UC4 (nv21At (fun i => env.memory (a + i)) w h)).bytes[4 * k + c]? =
          (yuvToRGBA 0 0 0)[c]? := by
      intro c hc
      rw [nv21_bytes_getElem? _ w h k c hk hc, hy, hu, hv]
    have p0 := hpix 0 (by omega)
    have p1 := hpix 1 (by omega)
    have p2 := hpix 2 (by omega)
    have p3 := hpix 3 (by omega)
    rw [Nat.add_zero] at p0
    exact ⟨p0, p1, p2, p3⟩

/-- Instance of the amended zero-frame statement: a 4x2 frame of zero bytes. -/
theorem yuv420ToRgba_zero_frame_witness :
    (0 < 4) ∧ (0 < 2) ∧ (4 % 2 = 0) ∧ (2 % 2 = 0) ∧ (3 * 2 ≤ 2147483647) ∧
      (∀ i, i < 4 * 2 * 3 / 2 → (flatMemory 0).memory (0 + i) = 0) ∧
      yuvToRGBA 0 0 0 = [0, 154, 0, 255] ∧
      ∃ out, (yuv420ToRgba (flatMemory 0) ⟨some 0, 4 * 2 * 3 / 2⟩ (4 : Nat) (2 : Nat)).ret =
          some out ∧
        out.length = 4 * 2 * 4 ∧
        ∀ k, k < 4 * 2 →
          out[4 * k]? = some 0 ∧ out[4 * k + 1]? = some 154 ∧ out[4 * k + 2]? = some 0 ∧
          out[4 * k + 3]? = some 255 :=
  ⟨by omega, by omega, by omega, by omega, by omega, fun _ _ => rfl,
    yuv420ToRgba_zero_frame (flatMemory 0) 0 4 2 (by omega) (by omega) (by omega) (by omega)
      (by omega) (fun _ _ => rfl)⟩

/-- C9: for every interleaved RGBA image with positive dimensions the
Grayscale branch (mode 1) succeeds and returns an RGBA image of the same
dimensions in which every pixel has R = G = B, the luminance of the input
pixel, and alpha 255; and every buffer `processFrame` returns with mode 1
consists of such pixels. -/
theorem grayscale_branch_pixels (cv : ImgprocLib) (rgbaMat : Mat) (ht : rgbaMat.type = CV_8UC4)
    (hr : 0 < rgbaMat.rows) (hc : 0 < rgbaMat.cols) :
    (∃ p, (applyMode cv rgbaMat MODE_GRAYSCALE).result = .ok p ∧
        p.rows = rgbaMat.rows ∧ p.cols = rgbaMat.cols ∧ p.type = CV_8UC4 ∧
        p.bytes.length % 4 = 0 ∧
        ∀ k, 4 * k + 3 < p.bytes.length →
          p.bytes[4 * k]? = some (grayAt rgbaMat.data 4 k) ∧
          p.bytes[4 * k + 1]? = some (grayAt rgbaMat.data 4 k) ∧
          p.bytes[4 * k + 2]? = some (grayAt rgbaMat.data 4 k) ∧
          p.bytes[4 * k + 3]? = some 255) ∧
      ∀ (env : JNIEnv) (buf : DirectBuffer) (width height : Int) (out : List uchar),
        (processFrame cv env buf width height MODE_GRAYSCALE).ret = some out →
        out.length % 4 = 0 ∧
        ∀ k, 4 * k + 3 < out.length →
          ∃ y, out[4 * k]? = some y ∧ out[4 * k + 1]? = some y ∧ out[4 * k + 2]? = some y ∧
            out[4 * k + 3]? = some 255 := by
  constructor
  · refine ⟨_, applyMode_grayscale_total cv rgbaMat ht hr hc, rfl, rfl, rfl, ?_⟩
    exact bytes_of_gray2rgba _ _ rfl rfl
  · intro env buf width height out hok
    obtain ⟨d, -, hres, -⟩ := processFrame_ok_inv cv env buf width height _ out hok
    obtain ⟨m, p, -, hp, hout⟩ := processFrameTry_ok_inv cv d width height _ out hres
    obtain ⟨-, -, p3, p4⟩ := applyMode_grayscale_ok cv m p hp
    obtain ⟨hlen, hpx⟩ := bytes_of_gray2rgba p _ p3 p4
    subst hout
    exact ⟨hlen, fun k hk => ⟨_, hpx k hk⟩⟩

/-- Instance of the Grayscale statement: a single RGBA pixel. -/
theorem grayscale_branch_pixels_witness :
    (Mat.mk 1 1 CV_8UC4 fun i => Fin.ofNat (50 * i)).type = CV_8UC4 ∧
      0 < (Mat.mk 1 1 CV_8UC4 fun i => Fin.ofNat (50 * i)).rows ∧
      0 < (Mat.mk 1 1 CV_8UC4 fun i => Fin.ofNat (50 * i)).cols ∧
      ∃ p, (applyMode sampleLib (Mat.mk 1 1 CV_8UC4 fun i => Fin.ofNat (50 * i))
          MODE_GRAYSCALE).result = .ok p ∧
        p.rows = 1 ∧ p.cols = 1 ∧ p.type = CV_8UC4 ∧ p.bytes.length % 4 = 0 ∧
        ∀ k, 4 * k + 3 < p.bytes.length →
          p.bytes[4 * k]? = some (grayAt (fun i => Fin.ofNat (50 * i)) 4 k) ∧
          p.bytes[4 * k + 1]? = some (grayAt (fun i => Fin.ofNat (50 * i)) 4 k) ∧
          p.bytes[4 * k + 2]? = some (grayAt (fun i => Fin.ofNat (50 * i)) 4 k) ∧
          p.bytes[4 * k + 3]? = some 255 :=
  ⟨rfl, by decide, by decide,
    (grayscale_branch_pixels sampleLib (Mat.mk 1 1 CV_8UC4 fun i => Fin.ofNat (50 * i)) rfl
      (by decide) (by decide)).1⟩

end EdgeViewer
